import Mathlib

/-!
Verification of the interview-to-user-stories extraction/deduplication/scoring
core against its natural-language specification.

The definitions below are a shallow embedding of
`src/worker/processors/deduplication.py` (class DeduplicationEngine) and of the
scoring/tagging portions of `src/worker/processors/extraction_engine.py`
(class ExtractionEngine).  Python dict-based story records are modelled as a
structure with one `Option` field per dictionary key used by the code (a `none`
field models an absent key).  Floating-point scores are modelled as exact
rationals.  Calls into external libraries that the repository does not define
(difflib.SequenceMatcher.ratio, sklearn TfidfVectorizer + cosine_similarity)
and the iteration order of Python's built-in `set` (which depends on the
interpreter's string-hash randomization) are modelled as explicit oracle
parameters, constrained only by what those libraries guarantee.
-/

/-- Python truthiness of an optional string value: a key that is absent or maps
to the empty string is falsy. -/
def truthy_str : Option String → Bool
  | none => false
  | some s => !(s == "")

/-- Python truthiness of an optional list value: a key that is absent or maps
to the empty list is falsy. -/
def truthy_list : Option (List String) → Bool
  | none => false
  | some l => !(l.isEmpty)

/-- Substring occurrence test on character lists: the needle occurs starting
at some position of the haystack (an empty needle always occurs). -/
def contains_chars (needle : List Char) : List Char → Bool
  | [] => needle.isEmpty
  | c :: cs => needle.isPrefixOf (c :: cs) || contains_chars needle cs

/-- Python substring test `needle in hay` (models the `in` operator on str).
All string operations in this file recurse over the character list `.data`
of the string, mirroring Python's view of a str as a character sequence. -/
def py_contains (hay needle : String) : Bool :=
  contains_chars needle.data hay.data

/-- The whitespace characters of Python `str.split()` / `str.strip()`
(ASCII fragment: space, tab, newline, vertical tab, form feed, carriage
return). -/
def py_is_space (c : Char) : Bool :=
  c == ' ' || c == '\t' || c == '\n' || c == '\r' || c.toNat == 11 || c.toNat == 12

/-- Split a character list at the characters satisfying the predicate,
dropping empty pieces (the behaviour of Python `str.split()` with no
argument). -/
def split_drop (p : Char → Bool) : List Char → List Char → List (List Char)
  | acc, [] => if acc.isEmpty then [] else [acc]
  | acc, c :: cs =>
    if p c then
      if acc.isEmpty then split_drop p [] cs
      else acc :: split_drop p [] cs
    else split_drop p (acc ++ [c]) cs

/-- Python `str.split()` with no argument: split on whitespace runs, dropping
empty pieces. -/
def py_split_ws (s : String) : List String :=
  (split_drop py_is_space [] s.data).map String.mk

/-- Lowercases one character the way Python `str.lower()` does on the ASCII
range (the inputs of this system are ASCII). -/
def py_char_lower (c : Char) : Char :=
  if 65 ≤ c.toNat && c.toNat ≤ 90 then Char.ofNat (c.toNat + 32) else c

/-- Python `str.lower()` (ASCII fragment). -/
def py_lower (s : String) : String :=
  String.mk (s.data.map py_char_lower)

/-- A character counted as a word character by the regex class `\w`
(ASCII fragment: letters, digits, underscore). -/
def is_word_char (c : Char) : Bool :=
  (48 ≤ c.toNat && c.toNat ≤ 57) || (65 ≤ c.toNat && c.toNat ≤ 90) ||
  (97 ≤ c.toNat && c.toNat ≤ 122) || c.toNat == 95

/-- Models `re.sub(r'[^\w\s]', ' ', text)`: every character that is neither a
word character nor whitespace is replaced by a space. -/
def strip_punct (s : String) : String :=
  String.mk (s.data.map (fun c => if is_word_char c || py_is_space c then c else ' '))

/-- Python `str.strip()`: remove leading and trailing whitespace. -/
def py_strip (s : String) : String :=
  String.mk (((s.data.dropWhile py_is_space).reverse.dropWhile py_is_space).reverse)

/-- Joins string pieces with a single separator character (models
`'sep'.join(pieces)` for a one-character separator). -/
def join_with (sep : Char) : List (List Char) → List Char
  | [] => []
  | [w] => w
  | w :: ws => w ++ sep :: join_with sep ws

/-- The fixed filler-word list of `DeduplicationEngine._normalize_text`. -/
def filler_words : List String :=
  ["the", "a", "an", "and", "or", "but", "in", "on", "at", "to", "for", "of", "with", "by"]

/-- Embedding of `DeduplicationEngine._normalize_text`: lowercase, replace
punctuation by spaces, collapse whitespace, drop filler words, re-join with
single spaces.  Collapsing the whitespace and then splitting on single spaces
is rendered as one whitespace split. -/
def normalize_text (t : String) : String :=
  if t == "" then ""
  else
    String.mk (join_with ' '
      (((py_split_ws (strip_punct (py_lower t))).filter
        (fun w => !(filler_words.contains w))).map String.data))

/-- A story record: one `Option` field per dictionary key read or written by
the deduplication pipeline (`none` models an absent key). -/
structure Story where
  user_story_id : Option String := none
  user_story : Option String := none
  team : Option String := none
  category : Option String := none
  lifecycle_phase : Option String := none
  capability : Option String := none
  priority : Option String := none
  source : Option String := none
  snippet : Option String := none
  match_score : Option ℚ := none
  tags : Option (List String) := none
  content_hash : Option String := none
  extraction_method : Option String := none
  requirements : Option (List String) := none
  acceptance_criteria : Option (List String) := none
  clean_text : Option String := none
  clean_capability : Option String := none
  clean_snippet : Option String := none
  source_files : Option (List String) := none
  duplicate_count : Option Nat := none
  deriving DecidableEq, Repr

instance : Inhabited Story := ⟨{}⟩

/-- The deduplication engine configuration: the similarity threshold together
with the two external similarity oracles.  `ratio` models
`difflib.SequenceMatcher(None, a, b).ratio()`; `sem` models the
`TfidfVectorizer.fit_transform` + `cosine_similarity` call, whose possible
exception is modelled by `Except.error`. -/
structure DeduplicationEngine where
  similarity_threshold : ℚ
  ratio : String → String → ℚ
  sem : String → String → Except String ℚ

/-- Embedding of `_clean_stories` for one story: caches normalized copies of
the text fields under the `clean_*` keys (only when the source key is
present). -/
def clean_story (s : Story) : Story :=
  { s with
    clean_text := match s.user_story with
      | some t => some (normalize_text t)
      | none => s.clean_text
    clean_capability := match s.capability with
      | some t => some (normalize_text t)
      | none => s.clean_capability
    clean_snippet := match s.snippet with
      | some t => some (normalize_text t)
      | none => s.clean_snippet }

/-- Embedding of `DeduplicationEngine._clean_stories`. -/
def clean_stories (stories : List Story) : List Story :=
  stories.map clean_story

/-- Embedding of `_calculate_text_similarity`: Jaccard similarity of the
whitespace token sets of the cached `clean_text` fields. -/
def calculate_text_similarity (s1 s2 : Story) : ℚ :=
  let text1 := s1.clean_text.getD ""
  let text2 := s2.clean_text.getD ""
  if text1 == "" || text2 == "" then 0
  else
    let words1 := (py_split_ws text1).toFinset
    let words2 := (py_split_ws text2).toFinset
    if words1 = ∅ ∨ words2 = ∅ then 0
    else
      let inter := (words1 ∩ words2).card
      let union := (words1 ∪ words2).card
      if 0 < union then (inter : ℚ) / (union : ℚ) else 0

/-- Embedding of `_calculate_capability_similarity`: 0 when either cached
capability is empty, otherwise the SequenceMatcher ratio oracle. -/
def calculate_capability_similarity (E : DeduplicationEngine) (s1 s2 : Story) : ℚ :=
  let cap1 := s1.clean_capability.getD ""
  let cap2 := s2.clean_capability.getD ""
  if cap1 == "" || cap2 == "" then 0
  else E.ratio cap1 cap2

/-- The combined text handed to the TF-IDF vectorizer for one story
(f-string concatenation of cached text and capability). -/
def semantic_input (s : Story) : String :=
  (s.clean_text.getD "") ++ " " ++ (s.clean_capability.getD "")

/-- Embedding of `_calculate_semantic_similarity`: 0 when either combined text
is blank, otherwise the TF-IDF cosine oracle; an exception from the oracle is
caught and mapped to 0 (the try/except in the source). -/
def calculate_semantic_similarity (E : DeduplicationEngine) (s1 s2 : Story) : ℚ :=
  let text1 := semantic_input s1
  let text2 := semantic_input s2
  if py_strip text1 == "" || py_strip text2 == "" then 0
  else
    match E.sem text1 text2 with
    | Except.ok v => v
    | Except.error _ => 0

/-- The weighted similarity computed inside `_are_stories_similar`. -/
def weighted_similarity (E : DeduplicationEngine) (s1 s2 : Story) : ℚ :=
  calculate_text_similarity s1 s2 * 0.4 +
  calculate_capability_similarity E s1 s2 * 0.4 +
  calculate_semantic_similarity E s1 s2 * 0.2

/-- Embedding of `_are_stories_similar`: the weighted similarity reaches the
threshold. -/
def are_stories_similar (E : DeduplicationEngine) (s1 s2 : Story) : Bool :=
  decide (E.similarity_threshold ≤ weighted_similarity E s1 s2)

/-- The scanning loop of `_find_duplicates` over the index-decorated story
list: each unprocessed pivot `i` collects every later unprocessed index `j`
whose story is similar to the pivot; groups of size one are dropped but their
pivot stays marked processed. -/
def find_dup_loop (E : DeduplicationEngine) :
    List (Nat × Story) → List Nat → List (List Nat)
  | [], _ => []
  | (i, s) :: rest, processed =>
    if processed.contains i then
      find_dup_loop E rest processed
    else
      let members := rest.filter
        (fun p => !(processed.contains p.1) && are_stories_similar E s p.2)
      let group := i :: members.map Prod.fst
      if 1 < group.length then
        group :: find_dup_loop E rest (processed ++ group)
      else
        find_dup_loop E rest (processed ++ group)

/-- Embedding of `DeduplicationEngine._find_duplicates`. -/
def find_duplicates (E : DeduplicationEngine) (stories : List Story) : List (List Nat) :=
  find_dup_loop E stories.enum []

/-- First longest element of a nonempty text list, models
`max(texts, key=len)` (Python max keeps the first maximal element). -/
def max_by_len (head : String) (rest : List String) : String :=
  rest.foldl (fun best t => if best.data.length < t.data.length then t else best) head

/-- Split a character list at every occurrence of the separator, keeping empty
pieces (the behaviour of Python `str.split(sep)` with an explicit
separator). -/
def split_keep (sep : Char) : List Char → List Char → List (List Char)
  | acc, [] => [acc]
  | acc, c :: cs =>
    if c == sep then acc :: split_keep sep [] cs
    else split_keep sep (acc ++ [c]) cs

/-- Python `text.split('.')`. -/
def py_split_dot (s : String) : List String :=
  (split_keep '.' [] s.data).map String.mk

/-- Inner sentence-appending loop of `_merge_text_fields`: split the other text
on periods and append every stripped, nonempty sentence that is not already a
substring of the accumulated text. -/
def add_sentences (merged : String) (t : String) : String :=
  (py_split_dot t).foldl
    (fun acc sraw =>
      let s := py_strip sraw
      if !(s == "") && !(py_contains acc s) then acc ++ ". " ++ s else acc)
    merged

/-- Embedding of `_merge_text_fields`: drop blank texts, keep a single
survivor verbatim, otherwise start from the first longest text and fold in
unseen sentences from every other text. -/
def merge_text_fields (texts : List String) : String :=
  let ts := texts.filter (fun t => !(t == "") && !(py_strip t == ""))
  match ts with
  | [] => ""
  | [t] => t
  | t :: rest =>
    let longest := max_by_len t rest
    ts.foldl (fun acc x => if x == longest then acc else add_sentences acc x) longest

/-- A set-iteration-order oracle: models the list produced by Python's
`list(set(xs))`, whose element order depends on the interpreter's string-hash
randomization and is therefore not fixed by the source. -/
def SetOrderOK (set_order : List String → List String) : Prop :=
  ∀ l : List String, (set_order l).Perm l.dedup

/-- Embedding of `_merge_story_group`: the first story is the base; text
fields are merged, tag/requirement/criteria lists are unioned through the
set-order oracle, the nonempty sources are collected into `source_files`,
`duplicate_count` is the group size and `match_score` the arithmetic mean. -/
def merge_story_group (set_order : List String → List String)
    (story_group : List Story) : Story :=
  match story_group with
  | [] => {}
  | base :: _ =>
    let all := story_group
    { base with
      user_story := some (merge_text_fields (all.map (fun s => s.user_story.getD "")))
      capability := some (merge_text_fields (all.map (fun s => s.capability.getD "")))
      snippet := some (merge_text_fields (all.map (fun s => s.snippet.getD "")))
      tags := some (set_order ((all.map (fun s => s.tags.getD [])).flatten))
      requirements := some (set_order ((all.map (fun s => s.requirements.getD [])).flatten))
      acceptance_criteria :=
        some (set_order ((all.map (fun s => s.acceptance_criteria.getD [])).flatten))
      source_files := some (all.filterMap
        (fun s => if truthy_str s.source then some (s.source.getD "") else none))
      duplicate_count := some all.length
      match_score := some
        (((all.map (fun s => s.match_score.getD 0.5)).sum) / (all.length : ℚ)) }

/-- Embedding of `_merge_duplicates`: merged representatives of the size-gt-one
groups first (in group order), then the unmerged stories in input order. -/
def merge_duplicates (set_order : List String → List String)
    (stories : List Story) (duplicate_groups : List (List Nat)) : List Story :=
  let gs := duplicate_groups.filter (fun g => !(g.length == 1))
  let merged := gs.map (fun g => merge_story_group set_order
    (g.map (fun i => stories.getD i {})))
  let merged_indices := gs.flatten
  merged ++ (stories.enum.filter (fun p => !(merged_indices.contains p.1))).map Prod.snd

/-- Scan for the regex `so that (.+)` in a character list: find the first
position where the literal "so that " is followed by at least one non-newline
character and return the greedy non-newline run after it. -/
def so_that_clause : List Char → Option (List Char)
  | [] => none
  | c :: cs =>
    if ("so that ".data).isPrefixOf (c :: cs) then
      let g := ((c :: cs).drop 8).takeWhile (fun ch => !(ch == '\n'))
      if g.isEmpty then so_that_clause cs else some g
    else so_that_clause cs

/-- Embedding of `_calculate_quality_score`: 0.5 base, +0.2 for the full
"As a / I need / so that" shape, +0.1 for a long capability, +0.1 for a long
benefit clause, +0.1 for more than one tag, capped at 1. -/
def calculate_quality_score (story : Story) : ℚ :=
  let user_story := story.user_story.getD ""
  let usl := py_lower user_story
  let s1 : ℚ := 0.5
  let s2 := if py_contains usl "as a" && py_contains usl "i need" && py_contains usl "so that"
    then s1 + 0.2 else s1
  let s3 := if 20 < (story.capability.getD "").data.length then s2 + 0.1 else s2
  let s4 := match so_that_clause usl.data with
    | some g => if 10 < g.length then s3 + 0.1 else s3
    | none => s3
  let s5 := match story.tags with
    | some l => if !(l.isEmpty) && 1 < l.length then s4 + 0.1 else s4
    | none => s4
  min s5 1

/-- Embedding of `_calculate_completeness_score`: 0.5 base, +0.1 per truthy
required field (`User Story`, `Capability`, `Category`, `Priority` in loop
order), +0.05 per truthy optional field (`Snippet`, `Tags`, `requirements`,
`acceptance_criteria`), capped at 1. -/
def calculate_completeness_score (story : Story) : ℚ :=
  let s1 : ℚ := 0.5
  let s2 := if truthy_str story.user_story then s1 + 0.1 else s1
  let s3 := if truthy_str story.capability then s2 + 0.1 else s2
  let s4 := if truthy_str story.category then s3 + 0.1 else s3
  let s5 := if truthy_str story.priority then s4 + 0.1 else s4
  let s6 := if truthy_str story.snippet then s5 + 0.05 else s5
  let s7 := if truthy_list story.tags then s6 + 0.05 else s6
  let s8 := if truthy_list story.requirements then s7 + 0.05 else s7
  let s9 := if truthy_list story.acceptance_criteria then s8 + 0.05 else s8
  min s9 1

/-- Round to the nearest integer, ties to the even neighbour (the rounding
CPython's built-in round applies; binary floating point is idealized as exact
rational arithmetic here). -/
def round_half_even (x : ℚ) : ℤ :=
  let f := ⌊x⌋
  let r := x - (f : ℚ)
  if r < 1/2 then f
  else if 1/2 < r then f + 1
  else if f % 2 = 0 then f else f + 1

/-- Models Python `round(x, 3)`. -/
def py_round3 (x : ℚ) : ℚ :=
  (round_half_even (x * 1000) : ℚ) / 1000

/-- Final scoring of one story inside `_calculate_final_scores`: only the
`Match Score` entry is replaced. -/
def score_story (story : Story) : Story :=
  let base_score := story.match_score.getD 0.5
  let quality_score := calculate_quality_score story
  let completeness_score := calculate_completeness_score story
  let final_score := base_score * 0.5 + quality_score * 0.3 + completeness_score * 0.2
  { story with match_score := some (py_round3 final_score) }

/-- Embedding of `_calculate_final_scores`. -/
def calculate_final_scores (stories : List Story) : List Story :=
  stories.map score_story

/-- The sort key of the final sort: `x.get('Match Score', 0)`. -/
def score_key (s : Story) : ℚ :=
  s.match_score.getD 0

/-- Stable descending insertion step: the new story is placed before the first
strictly smaller key but after every earlier story with an equal key. -/
def insert_scored (x : Story) : List Story → List Story
  | [] => [x]
  | y :: ys => if score_key y ≤ score_key x then x :: y :: ys else y :: insert_scored x ys

/-- The final sort of `deduplicate_and_score`:
`scored_stories.sort(key=..., reverse=True)` is Python's stable sort in
non-increasing key order; a stable sort for a fixed total key order is
extensionally unique, so stable insertion sort models it exactly. -/
def sort_by_score : List Story → List Story
  | [] => []
  | x :: xs => insert_scored x (sort_by_score xs)

/-- Embedding of `DeduplicationEngine.deduplicate_and_score`, parameterized by
the engine configuration and the interpreter's set-iteration-order oracle. -/
def deduplicate_and_score (E : DeduplicationEngine)
    (set_order : List String → List String) (stories : List Story) : List Story :=
  if stories.isEmpty then []
  else
    let cleaned := clean_stories stories
    let duplicate_groups := find_duplicates E cleaned
    let merged := merge_duplicates set_order cleaned duplicate_groups
    let scored := calculate_final_scores merged
    sort_by_score scored

/-- Lexicographic code-point comparison of character lists, the string order
of Python `sorted()`. -/
def le_chars : List Char → List Char → Bool
  | [], _ => true
  | _ :: _, [] => false
  | c :: cs, d :: ds =>
    if c.toNat < d.toNat then true
    else if d.toNat < c.toNat then false
    else le_chars cs ds

/-- Python string comparison `s <= t` (code-point lexicographic). -/
def py_str_le (s t : String) : Bool :=
  le_chars s.data t.data

/-- Stable ascending insertion step for string sorting. -/
def insert_str (x : String) : List String → List String
  | [] => [x]
  | y :: ys => if py_str_le x y then x :: y :: ys else y :: insert_str x ys

/-- Python `sorted()` on a list of strings, modelled by stable insertion sort
(stable sorting for a total order is extensionally unique). -/
def sort_strings : List String → List String
  | [] => []
  | x :: xs => insert_str x (sort_strings xs)

/-- A raw candidate record, the dictionary produced by the extraction methods
of `ExtractionEngine` before structuring. -/
structure RawStory where
  user_story_id : Option String := none
  role : Option String := none
  capability : Option String := none
  benefit : Option String := none
  category : Option String := none
  priority : Option String := none
  source_text : Option String := none
  requirements : Option (List String) := none
  acceptance_criteria : Option (List String) := none
  source_file : Option String := none
  paragraph_index : Option Nat := none
  extraction_method : Option String := none
  confidence_score : Option ℚ := none
  content_hash : Option String := none
  deriving DecidableEq, Repr

/-- Embedding of `ExtractionEngine._generate_tags`: category and priority tags
(with defaults), the lowercased role when truthy, capability-derived keyword
tags, then `sorted(list(set(tags)))`.  The sorted result does not depend on
the iteration order of the intermediate Python set, so the set is modelled by
`List.dedup`. -/
def generate_tags (story : RawStory) : List String :=
  let t1 := [story.category.getD "general", story.priority.getD "medium"]
  let t2 := if truthy_str story.role then t1 ++ [py_lower (story.role.getD "")] else t1
  let capability := py_lower (story.capability.getD "")
  let t3 := if py_contains capability "approval" then t2 ++ ["approval"] else t2
  let t4 := if py_contains capability "notification" then t3 ++ ["notification"] else t3
  let t5 := if py_contains capability "routing" then t4 ++ ["routing"] else t4
  let t6 := if py_contains capability "asset" then t5 ++ ["asset-management"] else t5
  sort_strings t6.dedup

/-- The JSON-object fields that `_parse_ai_response` reads from the parsed AI
response. -/
structure AiStoryData where
  role : Option String := none
  capability : Option String := none
  benefit : Option String := none
  category : Option String := none
  priority : Option String := none
  source_text : Option String := none
  requirements : Option (List String) := none
  acceptance_criteria : Option (List String) := none
  deriving DecidableEq

/-- The Python exceptions relevant to `_parse_ai_response`. -/
inductive PyError
  | nameError
  deriving DecidableEq

/-- The expression `text` evaluated on the success path of
`_parse_ai_response` (for the `content_hash` entry): the name `text` is bound
neither in that function's scope (its parameters are `ai_response`, `doc` and
`paragraph_index`) nor at module level, so evaluating it raises a
`NameError`. -/
def text_variable : Except PyError String :=
  Except.error PyError.nameError

/-- The try-block of `_parse_ai_response`.  `json_extract` models the
`re.search` + `json.loads` extraction of a JSON object from the response;
`build` models the construction of the returned candidate dictionary from the
parsed data, the hash-source text and the document context.  The construction
is never completed, because the dictionary's `content_hash` entry evaluates
the unbound variable `text` (every other entry evaluates without raising). -/
def parse_ai_response_tryblock (json_extract : String → Option AiStoryData)
    (build : AiStoryData → String → String → Nat → RawStory)
    (ai_response : String) (doc_filename : String) (paragraph_index : Nat) :
    Except PyError (Option RawStory) :=
  match json_extract ai_response with
  | some story_data =>
    if story_data.role.isSome && story_data.capability.isSome && story_data.benefit.isSome then
      match text_variable with
      | Except.ok text => Except.ok (some (build story_data text doc_filename paragraph_index))
      | Except.error e => Except.error e
    else Except.ok none
  | none => Except.ok none

/-- Embedding of `ExtractionEngine._parse_ai_response`: the try-block wrapped
in the `except Exception` handler that logs and returns `None`. -/
def parse_ai_response (json_extract : String → Option AiStoryData)
    (build : AiStoryData → String → String → Nat → RawStory)
    (ai_response : String) (doc_filename : String) (paragraph_index : Nat) :
    Option RawStory :=
  match parse_ai_response_tryblock json_extract build ai_response doc_filename paragraph_index with
  | Except.ok r => r
  | Except.error _ => none

/- Batteries marks the core rational operations irreducible for elaborator
performance; restore default reducibility so that closed rational
computations in witnesses and counterexamples can be settled by kernel
evaluation. -/
attribute [local semireducible] Rat.add Rat.mul Rat.sub Rat.inv Rat.ofScientific

set_option maxRecDepth 100000

/-! ## Concrete fixtures used by witnesses and counterexamples -/

/-- First story of the identical-text / empty-capability scenario. -/
def story_a : Story :=
  { user_story := some "As a manager, I need document approval so that compliance is maintained.",
    capability := some "", source := some "a.txt" }

/-- Second story of the identical-text / empty-capability scenario. -/
def story_b : Story :=
  { user_story := some "As a manager, I need document approval so that compliance is maintained.",
    capability := some "", source := some "b.txt" }

/-- A pair of stories that the engine does merge: identical story text and
identical nonempty capability. -/
def story_m1 : Story :=
  { user_story := some "As a manager, I need document approval so that compliance is maintained.",
    capability := some "document approval", source := some "a.txt", tags := some ["b"] }

/-- Companion of `story_m1` with a different source and tag. -/
def story_m2 : Story :=
  { user_story := some "As a manager, I need document approval so that compliance is maintained.",
    capability := some "document approval", source := some "b.txt", tags := some ["a"] }

/-- A story with a story text sharing no tokens with `story_d2`. -/
def story_d1 : Story := { user_story := some "alpha beta gamma" }

/-- A story with a story text sharing no tokens with `story_d1`. -/
def story_d2 : Story := { user_story := some "delta epsilon zeta" }

/-- Engine with the default threshold whose oracles return the values the
real libraries return on identical inputs: `SequenceMatcher(None, x, x)`
has ratio 1.0 and the TF-IDF cosine of two identical non-degenerate
documents is 1.0. -/
def engine_identical : DeduplicationEngine :=
  { similarity_threshold := 0.7, ratio := fun _ _ => 1, sem := fun _ _ => Except.ok 1 }

/-- Engine with the default threshold whose oracles return the values the
real libraries return on disjoint inputs (TF-IDF cosine of token-disjoint
documents is 0). -/
def engine_zero : DeduplicationEngine :=
  { similarity_threshold := 0.7, ratio := fun _ _ => 0, sem := fun _ _ => Except.ok 0 }

/-- `List.dedup` keeps one copy of every element, so it is a legitimate
set-iteration-order oracle. -/
theorem set_order_ok_dedup : SetOrderOK List.dedup := fun _ => List.Perm.refl _

/-- Reversed deduplication is also a legitimate set-iteration-order oracle
(Python makes no promise about the order of `list(set(xs))`). -/
theorem set_order_ok_dedup_reverse : SetOrderOK (fun l => l.dedup.reverse) :=
  fun _ => List.reverse_perm _

/-! ## C10 -/

/-- C10: for every AI response string, document record and paragraph index,
`_parse_ai_response` returns `None` even when the response contains valid
JSON with the required `role`, `capability` and `benefit` fields: the success
path evaluates the unbound variable `text` for the content hash, the
resulting `NameError` is caught by the enclosing handler, and so the AI
extraction path never yields a candidate story. -/
theorem C10_parse_ai_response_always_none
    (json_extract : String → Option AiStoryData)
    (build : AiStoryData → String → String → Nat → RawStory)
    (ai_response doc_filename : String) (paragraph_index : Nat) :
    parse_ai_response json_extract build ai_response doc_filename paragraph_index = none := by
  unfold parse_ai_response parse_ai_response_tryblock text_variable
  cases json_extract ai_response with
  | none => rfl
  | some story_data =>
    by_cases h : (story_data.role.isSome && story_data.capability.isSome
        && story_data.benefit.isSome) = true
    · simp [h]
    · simp [h]

/-! ## C7 -/

/-- C7 (amended): for every nonempty merged group, `_merge_story_group` keeps
the base (first) story's `Source` value in the `source` field, stores the
list of the members' truthy (nonempty) sources under the separate
`source_files` key, and sets `duplicate_count` to the group size. -/
theorem C7_merge_sources_and_count (set_order : List String → List String)
    (base : Story) (rest : List Story) :
    (merge_story_group set_order (base :: rest)).source = base.source ∧
    (merge_story_group set_order (base :: rest)).source_files =
      some ((base :: rest).filterMap
        (fun s => if truthy_str s.source then some (s.source.getD "") else none)) ∧
    (merge_story_group set_order (base :: rest)).duplicate_count =
      some (base :: rest).length :=
  ⟨rfl, rfl, rfl⟩

/-- C7 counterexample: in a two-story duplicate group whose members carry the
sources a.txt and b.txt, the representative's `source` field does not become
the list of both sources; it stays the base story's scalar source, while the
pair of sources lands under the new `source_files` key. -/
theorem C7_cex :
    (deduplicate_and_score engine_identical List.dedup [story_m1, story_m2]).map
        (fun s => (s.source, s.source_files, s.duplicate_count)) =
      [(some "a.txt", some ["a.txt", "b.txt"], some 2)] := by
  decide

/-! ## C4 -/

/-- C4 (amended): `deduplicate_and_score` on a single story returns exactly
that story with the final score recomputed by the scoring formula AND the
three normalization-cache keys `clean_text` / `clean_capability` /
`clean_snippet` populated from the corresponding present fields (the cache
written by `_clean_stories` leaks into the output); every other field is
unchanged. -/
theorem C4_singleton_frame (E : DeduplicationEngine)
    (set_order : List String → List String) (s : Story) :
    deduplicate_and_score E set_order [s] = [score_story (clean_story s)] ∧
    (score_story (clean_story s)).user_story_id = s.user_story_id ∧
    (score_story (clean_story s)).user_story = s.user_story ∧
    (score_story (clean_story s)).team = s.team ∧
    (score_story (clean_story s)).category = s.category ∧
    (score_story (clean_story s)).lifecycle_phase = s.lifecycle_phase ∧
    (score_story (clean_story s)).capability = s.capability ∧
    (score_story (clean_story s)).priority = s.priority ∧
    (score_story (clean_story s)).source = s.source ∧
    (score_story (clean_story s)).snippet = s.snippet ∧
    (score_story (clean_story s)).tags = s.tags ∧
    (score_story (clean_story s)).content_hash = s.content_hash ∧
    (score_story (clean_story s)).extraction_method = s.extraction_method ∧
    (score_story (clean_story s)).requirements = s.requirements ∧
    (score_story (clean_story s)).acceptance_criteria = s.acceptance_criteria ∧
    (score_story (clean_story s)).source_files = s.source_files ∧
    (score_story (clean_story s)).duplicate_count = s.duplicate_count ∧
    (score_story (clean_story s)).match_score =
      some (py_round3 ((clean_story s).match_score.getD 0.5 * 0.5 +
        calculate_quality_score (clean_story s) * 0.3 +
        calculate_completeness_score (clean_story s) * 0.2)) ∧
    (score_story (clean_story s)).clean_text =
      (match s.user_story with
        | some t => some (normalize_text t)
        | none => s.clean_text) ∧
    (score_story (clean_story s)).clean_capability =
      (match s.capability with
        | some t => some (normalize_text t)
        | none => s.clean_capability) ∧
    (score_story (clean_story s)).clean_snippet =
      (match s.snippet with
        | some t => some (normalize_text t)
        | none => s.clean_snippet) :=
  ⟨rfl, rfl, rfl, rfl, rfl, rfl, rfl, rfl, rfl, rfl, rfl, rfl, rfl, rfl, rfl, rfl,
   rfl, rfl, rfl, rfl, rfl⟩

/-- C4 counterexample: on a singleton input whose story carries a `User
Story` text, the output story is not the input with only the score changed;
a new `clean_text` key appears (it was absent on the input). -/
theorem C4_cex :
    (deduplicate_and_score engine_zero List.dedup [story_d1]).map (fun t => t.clean_text) =
      [some "alpha beta gamma"] ∧
    story_d1.clean_text = none := by
  constructor
  · decide
  · rfl

/-! ## C5 -/

/-- C5: for every pair of stories the composite similarity is
0.4 times the lexical Jaccard score (cardinality of intersection over
cardinality of union of the normalized token sets, 0 when either token set is
empty), plus 0.4 times the capability sequence-matching ratio (0 when either
normalized capability is empty), plus 0.2 times the TF-IDF cosine score
(0 when the oracle raises or an input is blank), and two stories are judged
similar exactly when this weighted sum reaches the configured threshold. -/
theorem C5_composite_similarity (E : DeduplicationEngine) (a b : Story) :
    (are_stories_similar E a b = true ↔
      E.similarity_threshold ≤
        0.4 * calculate_text_similarity a b +
        0.4 * calculate_capability_similarity E a b +
        0.2 * calculate_semantic_similarity E a b) ∧
    calculate_text_similarity a b =
      (if ((py_split_ws (a.clean_text.getD "")).toFinset = ∅ ∨
           (py_split_ws (b.clean_text.getD "")).toFinset = ∅) then 0
       else
         (((py_split_ws (a.clean_text.getD "")).toFinset ∩
             (py_split_ws (b.clean_text.getD "")).toFinset).card : ℚ) /
           (((py_split_ws (a.clean_text.getD "")).toFinset ∪
             (py_split_ws (b.clean_text.getD "")).toFinset).card : ℚ)) := by
  constructor
  · unfold are_stories_similar weighted_similarity
    rw [decide_eq_true_iff]
    constructor
    · intro h
      calc E.similarity_threshold ≤ _ := h
        _ = _ := by ring
    · intro h
      calc E.similarity_threshold ≤ _ := h
        _ = _ := by ring
  · unfold calculate_text_similarity
    by_cases h1 : a.clean_text.getD "" = ""
    · rw [h1]
      have hsplit : py_split_ws "" = [] := rfl
      simp [hsplit]
    · by_cases h2 : b.clean_text.getD "" = ""
      · rw [h2]
        have hsplit : py_split_ws "" = [] := rfl
        simp [hsplit, h1]
      · have e1 : (a.clean_text.getD "" == "") = false := by
          simp [h1]
        have e2 : (b.clean_text.getD "" == "") = false := by
          simp [h2]
        simp only [e1, e2, Bool.or_self, Bool.false_eq_true, if_false,
          List.toFinset_eq_empty_iff]
        by_cases hw : (py_split_ws (a.clean_text.getD "") = [] ∨
            py_split_ws (b.clean_text.getD "") = [])
        · simp [hw]
        · have hpos : 0 < ((py_split_ws (a.clean_text.getD "")).toFinset ∪
              (py_split_ws (b.clean_text.getD "")).toFinset).card := by
            push_neg at hw
            rcases hw with ⟨hwa, _⟩
            apply Finset.card_pos.mpr
            rcases List.exists_mem_of_ne_nil _ hwa with ⟨x, hx⟩
            exact ⟨x, Finset.mem_union_left _ (List.mem_toFinset.mpr hx)⟩
          simp [hw, hpos]

/-! ## Generic clustering lemmas -/

/-- When every pair of distinctly-indexed entries of the scan list is
dissimilar, the scanning loop of `_find_duplicates` produces no groups. -/
theorem find_dup_loop_eq_nil (E : DeduplicationEngine) :
    ∀ (L : List (Nat × Story)) (processed : List Nat),
    (∀ p ∈ L, ∀ q ∈ L, p.1 ≠ q.1 → are_stories_similar E p.2 q.2 = false) →
    (L.map Prod.fst).Nodup →
    find_dup_loop E L processed = [] := by
  intro L
  induction L with
  | nil => intro processed _ _; rfl
  | cons hd tl ih =>
    intro processed h hnd
    obtain ⟨i, s⟩ := hd
    have hnd' : (i ∉ tl.map Prod.fst) ∧ (tl.map Prod.fst).Nodup := by
      simpa [List.nodup_cons] using hnd
    have hmem : tl.filter
        (fun p => !(processed.contains p.1) && are_stories_similar E s p.2) = [] := by
      apply List.filter_eq_nil_iff.mpr
      intro p hp
      have hne : (i : Nat) ≠ p.1 := by
        intro hip
        exact hnd'.1 (hip ▸ List.mem_map_of_mem Prod.fst hp)
      have hf := h (i, s) (List.mem_cons_self _ _) p (List.mem_cons_of_mem _ hp) hne
      simp [hf]
    have htl : ∀ p ∈ tl, ∀ q ∈ tl, p.1 ≠ q.1 → are_stories_similar E p.2 q.2 = false :=
      fun p hp q hq => h p (List.mem_cons_of_mem _ hp) q (List.mem_cons_of_mem _ hq)
    by_cases hc : processed.contains i = true
    · simp only [find_dup_loop, hc, if_true]
      exact ih _ htl hnd'.2
    · simp only [find_dup_loop, hc, if_false, hmem, Bool.false_eq_true, List.map_nil,
        List.length_cons, List.length_nil]
      simp only [show ¬(1 < 1) from by omega, if_false]
      exact ih _ htl hnd'.2

/-- When every pair of distinct positions of the cleaned story list is
dissimilar, `_find_duplicates` finds no duplicate groups. -/
theorem find_duplicates_eq_nil (E : DeduplicationEngine) (stories : List Story)
    (h : ∀ (i j : Nat) (a b : Story), i ≠ j → stories[i]? = some a → stories[j]? = some b →
      are_stories_similar E a b = false) :
    find_duplicates E stories = [] := by
  apply find_dup_loop_eq_nil
  · intro p hp q hq hne
    exact h p.1 q.1 p.2 q.2 hne (List.mem_enum_iff_getElem?.mp hp)
      (List.mem_enum_iff_getElem?.mp hq)
  · rw [List.enum_map_fst]
    exact List.nodup_range _

/-! ## C1 -/

/-- C1 (amended): for two stories with the identical text "As a manager, I
need document approval so that compliance is maintained." and empty
capability fields, the lexical similarity is 1.0, but because the capability
contributes 0 and the semantic score is at most 1, the composite is at most
0.4 + 0.2 = 0.6 < 0.7, so under the default threshold the pair is NOT
similar and `deduplicate_and_score` returns both stories unmerged with no
`duplicate_count` key. -/
theorem C1_identical_text_empty_capability_no_merge
    (ratio : String → String → ℚ) (sem : String → String → Except String ℚ)
    (hsem : ∀ x y q, sem x y = Except.ok q → q ≤ 1) :
    calculate_text_similarity (clean_story story_a) (clean_story story_b) = 1 ∧
    are_stories_similar ⟨0.7, ratio, sem⟩ (clean_story story_a) (clean_story story_b) = false ∧
    are_stories_similar ⟨0.7, ratio, sem⟩ (clean_story story_b) (clean_story story_a) = false ∧
    (deduplicate_and_score ⟨0.7, ratio, sem⟩ List.dedup [story_a, story_b]).length = 2 ∧
    ∀ s ∈ deduplicate_and_score ⟨0.7, ratio, sem⟩ List.dedup [story_a, story_b],
      s.duplicate_count = none := by
  have htext : calculate_text_similarity (clean_story story_a) (clean_story story_b) = 1 := by
    decide
  have htext' : calculate_text_similarity (clean_story story_b) (clean_story story_a) = 1 := by
    decide
  have hg : (py_strip (semantic_input (clean_story story_a)) == "" ||
      py_strip (semantic_input (clean_story story_b)) == "") = false := by decide
  have hsem_le : ∀ x y : Story, semantic_input x = semantic_input (clean_story story_a) →
      semantic_input y = semantic_input (clean_story story_a) →
      calculate_semantic_similarity ⟨0.7, ratio, sem⟩ x y ≤ 1 := by
    intro x y hx hy
    have hgg : (py_strip (semantic_input (clean_story story_a)) == "" ||
        py_strip (semantic_input (clean_story story_a)) == "") = false := by decide
    simp only [calculate_semantic_similarity, hx, hy, hgg, Bool.false_eq_true, if_false]
    cases h : sem (semantic_input (clean_story story_a)) (semantic_input (clean_story story_a)) with
    | ok v => simpa [h] using hsem _ _ _ h
    | error e => simp [h]
  have hinput : semantic_input (clean_story story_b) = semantic_input (clean_story story_a) := by
    decide
  have hsimilar : ∀ x y : Story,
      calculate_text_similarity x y = 1 →
      calculate_capability_similarity ⟨0.7, ratio, sem⟩ x y = 0 →
      calculate_semantic_similarity ⟨0.7, ratio, sem⟩ x y ≤ 1 →
      are_stories_similar ⟨0.7, ratio, sem⟩ x y = false := by
    intro x y h1 h2 h3
    unfold are_stories_similar
    rw [decide_eq_false_iff_not]
    unfold weighted_similarity
    rw [h1, h2]
    intro hcontra
    linarith
  have hsim1 : are_stories_similar ⟨0.7, ratio, sem⟩
      (clean_story story_a) (clean_story story_b) = false :=
    hsimilar _ _ htext rfl (hsem_le _ _ rfl hinput)
  have hsim2 : are_stories_similar ⟨0.7, ratio, sem⟩
      (clean_story story_b) (clean_story story_a) = false :=
    hsimilar _ _ htext' rfl (hsem_le _ _ hinput rfl)
  have hfind : find_duplicates ⟨0.7, ratio, sem⟩ (clean_stories [story_a, story_b]) = [] := by
    apply find_duplicates_eq_nil
    intro i j a b hij hi hj
    match i, j with
    | 0, 0 => exact absurd rfl hij
    | 0, 1 =>
      have ha : a = clean_story story_a := by
        simpa [clean_stories] using hi.symm
      have hb : b = clean_story story_b := by
        simpa [clean_stories] using hj.symm
      rw [ha, hb]; exact hsim1
    | 1, 0 =>
      have ha : a = clean_story story_b := by
        simpa [clean_stories] using hi.symm
      have hb : b = clean_story story_a := by
        simpa [clean_stories] using hj.symm
      rw [ha, hb]; exact hsim2
    | 0, j + 2 => simp [clean_stories] at hj
    | 1, j + 2 => simp [clean_stories] at hj
    | i + 2, _ => simp [clean_stories] at hi
  have hpipe : deduplicate_and_score ⟨0.7, ratio, sem⟩ List.dedup [story_a, story_b] =
      sort_by_score (calculate_final_scores (merge_duplicates List.dedup
        (clean_stories [story_a, story_b])
        (find_duplicates ⟨0.7, ratio, sem⟩ (clean_stories [story_a, story_b])))) := rfl
  rw [htext]
  refine ⟨rfl, hsim1, hsim2, ?_, ?_⟩
  · rw [hpipe, hfind]; decide
  · rw [hpipe, hfind]; decide

/-- C1 witness: at the oracle values the real libraries produce for this pair
(TF-IDF cosine 1.0 on identical documents), the lexical similarity is 1 and
the pair is still not similar. -/
theorem C1_witness :
    calculate_text_similarity (clean_story story_a) (clean_story story_b) = 1 ∧
    are_stories_similar engine_identical (clean_story story_a) (clean_story story_b) = false := by
  have h := C1_identical_text_empty_capability_no_merge (fun _ _ => 1) (fun _ _ => Except.ok 1)
    (by intro x y q hq; cases hq; exact le_refl 1)
  exact ⟨h.1, h.2.1⟩

/-- C1 counterexample: with the engine whose oracles take the values the real
libraries produce on this pair, the two stories do NOT merge into one group:
the output still has two entries and neither carries a `duplicate_count`. -/
theorem C1_cex :
    (deduplicate_and_score engine_identical List.dedup [story_a, story_b]).length = 2 ∧
    ∀ s ∈ deduplicate_and_score engine_identical List.dedup [story_a, story_b],
      s.duplicate_count = none := by
  constructor
  · decide
  · decide

/-! ## C8 -/

/-- Two engines that judge similarity identically drive the scanning loop of
`_find_duplicates` to identical groups. -/
theorem find_dup_loop_congr (E1 E2 : DeduplicationEngine)
    (h : ∀ a b : Story, are_stories_similar E1 a b = are_stories_similar E2 a b) :
    ∀ (L : List (Nat × Story)) (processed : List Nat),
    find_dup_loop E1 L processed = find_dup_loop E2 L processed := by
  intro L
  induction L with
  | nil => intro processed; rfl
  | cons hd tl ih =>
    intro processed
    obtain ⟨i, s⟩ := hd
    have hfilter : tl.filter
          (fun p => !(processed.contains p.1) && are_stories_similar E1 s p.2) =
        tl.filter
          (fun p => !(processed.contains p.1) && are_stories_similar E2 s p.2) := by
      apply List.filter_congr
      intro p _
      rw [h]
    by_cases hc : processed.contains i = true
    · simp only [find_dup_loop, hc, if_true]
      exact ih _
    · simp only [find_dup_loop, hc, if_false, Bool.false_eq_true, hfilter]
      by_cases hlen : 1 < (i :: (tl.filter
          (fun p => !(processed.contains p.1) && are_stories_similar E2 s p.2)).map
            Prod.fst).length
      · simp only [hlen, if_true, ih _]
      · simp only [hlen, if_false, ih _]

/-- C8: a failure of the TF-IDF oracle contributes exactly 0.0 to the
composite similarity (the try/except in `_calculate_semantic_similarity`),
and an engine whose semantic oracle always raises produces exactly the output
of an engine whose semantic oracle always returns 0.0 — the pipeline returns
a result for every input instead of propagating the exception. -/
theorem C8_semantic_failure_degrades_to_zero :
    (∀ (E : DeduplicationEngine) (s1 s2 : Story) (err : String),
        E.sem (semantic_input s1) (semantic_input s2) = Except.error err →
        calculate_semantic_similarity E s1 s2 = 0) ∧
    (∀ (th : ℚ) (ratio : String → String → ℚ) (sem : String → String → Except String ℚ)
        (set_order : List String → List String) (stories : List Story),
        (∀ x y, ∃ err, sem x y = Except.error err) →
        deduplicate_and_score ⟨th, ratio, sem⟩ set_order stories =
          deduplicate_and_score ⟨th, ratio, fun _ _ => Except.ok 0⟩ set_order stories) := by
  constructor
  · intro E s1 s2 err herr
    simp only [calculate_semantic_similarity, herr]
    split
    · rfl
    · rfl
  · intro th ratio sem set_order stories hfail
    have hsem : ∀ a b : Story,
        calculate_semantic_similarity ⟨th, ratio, sem⟩ a b =
        calculate_semantic_similarity ⟨th, ratio, fun _ _ => Except.ok 0⟩ a b := by
      intro a b
      obtain ⟨err, herr⟩ := hfail (semantic_input a) (semantic_input b)
      simp only [calculate_semantic_similarity, herr]
    have hsim : ∀ a b : Story,
        are_stories_similar ⟨th, ratio, sem⟩ a b =
        are_stories_similar ⟨th, ratio, fun _ _ => Except.ok 0⟩ a b := by
      intro a b
      unfold are_stories_similar weighted_similarity
      rw [hsem]
      rfl
    unfold deduplicate_and_score
    by_cases hempty : stories.isEmpty = true
    · simp only [hempty, if_true]
    · simp only [hempty, Bool.false_eq_true, if_false]
      unfold find_duplicates
      rw [find_dup_loop_congr _ _ hsim]

/-- C8 witness: with an always-raising semantic oracle the semantic sub-score
of a concrete pair is 0 and the pipeline output on a concrete input equals
the output under an oracle that returns 0. -/
theorem C8_witness :
    calculate_semantic_similarity
      ⟨0.7, fun _ _ => 0, fun _ _ => Except.error "empty vocabulary"⟩
      (clean_story story_m1) (clean_story story_m2) = 0 ∧
    deduplicate_and_score ⟨0.7, fun _ _ => 0, fun _ _ => Except.error "empty vocabulary"⟩
        List.dedup [story_m1, story_m2] =
      deduplicate_and_score ⟨0.7, fun _ _ => 0, fun _ _ => Except.ok 0⟩
        List.dedup [story_m1, story_m2] := by
  constructor
  · exact C8_semantic_failure_degrades_to_zero.1 _ _ _ "empty vocabulary" rfl
  · exact C8_semantic_failure_degrades_to_zero.2 0.7 (fun _ _ => 0)
      (fun _ _ => Except.error "empty vocabulary") List.dedup [story_m1, story_m2]
      (fun _ _ => ⟨"empty vocabulary", rfl⟩)

/-! ## Sorting lemmas for the final sort -/

/-- Inserting into the stable descending sort is a permutation of consing. -/
theorem insert_scored_perm (x : Story) (l : List Story) :
    (insert_scored x l).Perm (x :: l) := by
  induction l with
  | nil => exact List.Perm.refl _
  | cons y ys ih =>
    by_cases h : score_key y ≤ score_key x
    · rw [insert_scored, if_pos h]
    · rw [insert_scored, if_neg h]
      exact (ih.cons y).trans (List.Perm.swap x y ys)

/-- The final sort permutes its input. -/
theorem sort_by_score_perm (l : List Story) : (sort_by_score l).Perm l := by
  induction l with
  | nil => exact List.Perm.refl _
  | cons x xs ih => exact (insert_scored_perm x (sort_by_score xs)).trans (ih.cons x)

/-- Inserting into a non-increasing list keeps it non-increasing. -/
theorem insert_scored_sorted (x : Story) (l : List Story)
    (h : l.Sorted (fun a b => score_key b ≤ score_key a)) :
    (insert_scored x l).Sorted (fun a b => score_key b ≤ score_key a) := by
  induction l with
  | nil => simp [insert_scored]
  | cons y ys ih =>
    rw [List.sorted_cons] at h
    by_cases hxy : score_key y ≤ score_key x
    · simp only [insert_scored, if_pos hxy]
      rw [List.sorted_cons]
      constructor
      · intro b hb
        rcases List.mem_cons.mp hb with hb | hb
        · rw [hb]; exact hxy
        · exact le_trans (h.1 b hb) hxy
      · rw [List.sorted_cons]
        exact h
    · simp only [insert_scored, if_neg hxy]
      rw [List.sorted_cons]
      constructor
      · intro b hb
        have hb' : b ∈ x :: ys := (insert_scored_perm x ys).mem_iff.mp hb
        rcases List.mem_cons.mp hb' with hb' | hb'
        · rw [hb']; exact le_of_lt (not_le.mp hxy)
        · exact h.1 b hb'
      · exact ih h.2

/-- The final sort produces a non-increasing score sequence. -/
theorem sort_by_score_sorted (l : List Story) :
    (sort_by_score l).Sorted (fun a b => score_key b ≤ score_key a) := by
  induction l with
  | nil => simp [sort_by_score]
  | cons x xs ih => exact insert_scored_sorted x _ ih

/-- Score-class membership test used to state stability. -/
def has_score (v : ℚ) (s : Story) : Bool :=
  score_key s == v

/-- Inserting a story keeps every other score class untouched and puts the
new story in front of its own class. -/
theorem insert_scored_filter (v : ℚ) (x : Story) (l : List Story) :
    (insert_scored x l).filter (has_score v) =
      if score_key x = v then x :: l.filter (has_score v)
      else l.filter (has_score v) := by
  induction l with
  | nil =>
    by_cases hx : score_key x = v
    · simp [insert_scored, List.filter_cons, has_score, beq_iff_eq, hx]
    · simp [insert_scored, List.filter_cons, has_score, beq_iff_eq, hx]
  | cons y ys ih =>
    by_cases hxy : score_key y ≤ score_key x
    · rw [insert_scored, if_pos hxy]
      by_cases hx : score_key x = v
      · by_cases hy : score_key y = v
        · simp [List.filter_cons, has_score, beq_iff_eq, hx, hy]
        · simp [List.filter_cons, has_score, beq_iff_eq, hx, hy]
      · simp [List.filter_cons, has_score, beq_iff_eq, hx]
    · rw [insert_scored, if_neg hxy]
      have hlt : score_key x < score_key y := not_le.mp hxy
      by_cases hy : score_key y = v
      · have hx : ¬ score_key x = v := by
          intro hc
          rw [hc, hy] at hlt
          exact lt_irrefl _ hlt
        simp [List.filter_cons, has_score, beq_iff_eq, hy, hx, ih]
      · by_cases hx : score_key x = v
        · simp [List.filter_cons, has_score, beq_iff_eq, hy, hx, ih]
        · simp [List.filter_cons, has_score, beq_iff_eq, hy, hx, ih]

/-- Stability of the final sort: every score class appears in the output in
exactly its input order. -/
theorem sort_by_score_filter (v : ℚ) (l : List Story) :
    (sort_by_score l).filter (has_score v) = l.filter (has_score v) := by
  induction l with
  | nil => rfl
  | cons x xs ih =>
    by_cases hx : score_key x = v
    · simp [sort_by_score, insert_scored_filter, hx, List.filter_cons, has_score, ih]
    · simp [sort_by_score, insert_scored_filter, hx, List.filter_cons, has_score, ih]

/-- With no duplicate groups, `_merge_duplicates` returns the stories
unchanged. -/
theorem merge_duplicates_nil (set_order : List String → List String)
    (stories : List Story) :
    merge_duplicates set_order stories [] = stories := by
  have h1 : stories.enum.filter (fun p => !(([] : List Nat).contains p.1)) = stories.enum := by
    apply List.filter_eq_self.mpr
    intro p _
    rfl
  simp only [merge_duplicates, List.filter_nil, List.map_nil, List.flatten_nil,
    List.nil_append]
  rw [h1, List.enum_map_snd]

/-! ## C9 -/

/-- C9 (amended): the output of `deduplicate_and_score` is sorted by
non-increasing final match score; stories with equal final scores keep the
relative order they had before sorting (each score class is filtered out of
the output in input order — the characterization of a stable sort); and when
no two distinct cleaned stories are similar, the output length equals the
input length.  (Strict descent cannot be guaranteed: distinct dissimilar
stories may tie on the final score.) -/
theorem C9_sorted_stable_output (E : DeduplicationEngine)
    (set_order : List String → List String) (stories : List Story) :
    (deduplicate_and_score E set_order stories).Sorted
        (fun a b => score_key b ≤ score_key a) ∧
    (∀ v : ℚ, (deduplicate_and_score E set_order stories).filter (has_score v) =
      (calculate_final_scores (merge_duplicates set_order (clean_stories stories)
        (find_duplicates E (clean_stories stories)))).filter (has_score v)) ∧
    ((∀ (i j : Nat) (a b : Story), i ≠ j → (clean_stories stories)[i]? = some a →
        (clean_stories stories)[j]? = some b → are_stories_similar E a b = false) →
      (deduplicate_and_score E set_order stories).length = stories.length) := by
  by_cases hempty : stories.isEmpty = true
  · have hnil : stories = [] := List.isEmpty_iff.mp hempty
    subst hnil
    exact ⟨List.sorted_nil, fun _ => rfl, fun _ => rfl⟩
  · have hef : stories.isEmpty = false := Bool.eq_false_iff.mpr hempty
    have hpipe : deduplicate_and_score E set_order stories =
        sort_by_score (calculate_final_scores (merge_duplicates set_order
          (clean_stories stories) (find_duplicates E (clean_stories stories)))) := by
      unfold deduplicate_and_score
      simp only [hef, Bool.false_eq_true, if_false]
    refine ⟨?_, ?_, ?_⟩
    · rw [hpipe]; exact sort_by_score_sorted _
    · intro v; rw [hpipe]; exact sort_by_score_filter v _
    · intro h
      rw [hpipe, find_duplicates_eq_nil E _ h, merge_duplicates_nil]
      rw [(sort_by_score_perm _).length_eq]
      simp [calculate_final_scores, clean_stories]

/-- C9 witness: on two concrete dissimilar stories the output is sorted
non-increasingly and keeps both stories. -/
theorem C9_witness :
    (deduplicate_and_score engine_zero List.dedup [story_d1, story_d2]).Sorted
      (fun a b => score_key b ≤ score_key a) ∧
    (deduplicate_and_score engine_zero List.dedup [story_d1, story_d2]).length = 2 := by
  have h := C9_sorted_stable_output engine_zero List.dedup [story_d1, story_d2]
  refine ⟨h.1, ?_⟩
  apply h.2.2
  intro i j a b hij hi hj
  match i, j with
  | 0, 0 => exact absurd rfl hij
  | 0, 1 =>
    have ha : a = clean_story story_d1 := by simpa [clean_stories] using hi.symm
    have hb : b = clean_story story_d2 := by simpa [clean_stories] using hj.symm
    rw [ha, hb]; decide
  | 1, 0 =>
    have ha : a = clean_story story_d2 := by simpa [clean_stories] using hi.symm
    have hb : b = clean_story story_d1 := by simpa [clean_stories] using hj.symm
    rw [ha, hb]; decide
  | 1, 1 => exact absurd rfl hij
  | 0, j + 2 => simp [clean_stories] at hj
  | 1, j + 2 => simp [clean_stories] at hj
  | i + 2, _ => simp [clean_stories] at hi

/-- C9 counterexample: five (here already two) pairwise-dissimilar stories
can tie on the final score, so the output, while non-increasing, is NOT
strictly ordered by descending match score. -/
theorem C9_cex :
    (deduplicate_and_score engine_zero List.dedup [story_d1, story_d2]).map score_key =
      [13/25, 13/25] ∧
    ¬ ((deduplicate_and_score engine_zero List.dedup [story_d1, story_d2]).Sorted
        (fun a b => score_key b < score_key a)) := by
  constructor
  · decide
  · decide

/-! ## C6 -/

/-- Rewrites a conditional increment into an unconditional sum with a
conditional addend. -/
theorem ite_add_shift (c : Prop) [Decidable c] (x y : ℚ) :
    (if c then x + y else x) = x + (if c then y else 0) := by
  split <;> simp

/-- The benefit-clause step of the quality score as a conditional addend. -/
theorem benefit_add_shift (o : Option (List Char)) (x : ℚ) :
    (match o with
     | some g => if 10 < g.length then x + 0.1 else x
     | none => x) =
    x + (match o with
         | some g => if 10 < g.length then (0.1 : ℚ) else 0
         | none => 0) := by
  cases o with
  | none => simp
  | some g => exact ite_add_shift _ _ _

/-- The tag step of the quality score as a conditional addend (the emptiness
conjunct of the source condition is subsumed by having more than one tag). -/
theorem tags_add_shift (o : Option (List String)) (x : ℚ) :
    (match o with
     | some l => if !(l.isEmpty) && 1 < l.length then x + 0.1 else x
     | none => x) =
    x + (match o with
         | some l => if 1 < l.length then (0.1 : ℚ) else 0
         | none => 0) := by
  cases o with
  | none => simp
  | some l =>
    by_cases h : 1 < l.length
    · have hne : l.isEmpty = false := by
        cases l with
        | nil => simp at h
        | cons a as => rfl
      simp [h, hne]
    · have hb : (!(l.isEmpty) && decide (1 < l.length)) = false := by
        simp [h]
      simp [h, hb]

/-- The quality score as the capped sum of its four conditional bonuses. -/
theorem calculate_quality_score_eq (t : Story) :
    calculate_quality_score t =
      min (0.5
        + (if (py_contains (py_lower (t.user_story.getD "")) "as a" &&
               py_contains (py_lower (t.user_story.getD "")) "i need" &&
               py_contains (py_lower (t.user_story.getD "")) "so that") = true
            then (0.2 : ℚ) else 0)
        + (if 20 < (t.capability.getD "").data.length then (0.1 : ℚ) else 0)
        + (match so_that_clause (py_lower (t.user_story.getD "")).data with
           | some g => if 10 < g.length then (0.1 : ℚ) else 0
           | none => 0)
        + (match t.tags with
           | some l => if 1 < l.length then (0.1 : ℚ) else 0
           | none => 0)) 1 := by
  simp only [calculate_quality_score]
  rw [ite_add_shift, ite_add_shift, benefit_add_shift, tags_add_shift]

/-- The completeness score as the capped sum of per-field bonuses. -/
theorem calculate_completeness_score_eq (t : Story) :
    calculate_completeness_score t =
      min (0.5
        + (if truthy_str t.user_story = true then (0.1 : ℚ) else 0)
        + (if truthy_str t.capability = true then (0.1 : ℚ) else 0)
        + (if truthy_str t.category = true then (0.1 : ℚ) else 0)
        + (if truthy_str t.priority = true then (0.1 : ℚ) else 0)
        + (if truthy_str t.snippet = true then (0.05 : ℚ) else 0)
        + (if truthy_list t.tags = true then (0.05 : ℚ) else 0)
        + (if truthy_list t.requirements = true then (0.05 : ℚ) else 0)
        + (if truthy_list t.acceptance_criteria = true then (0.05 : ℚ) else 0)) 1 := by
  simp only [calculate_completeness_score]
  rw [ite_add_shift, ite_add_shift, ite_add_shift, ite_add_shift, ite_add_shift,
    ite_add_shift, ite_add_shift, ite_add_shift]

/-- C6: every output story of `deduplicate_and_score` is a pre-sort story
whose `Match Score` was replaced by
round3(0.5*base + 0.3*quality + 0.2*completeness), where quality starts at
0.5 and adds 0.2 for the full story shape, 0.1 for a capability longer than
20 characters, 0.1 for a benefit clause longer than 10 characters and 0.1 for
at least two tags (capped at 1), and completeness starts at 0.5 and adds 0.1
per present required field and 0.05 per present optional field (capped
at 1). -/
theorem C6_final_score_formula (E : DeduplicationEngine)
    (set_order : List String → List String) (stories : List Story) (s : Story)
    (hs : s ∈ deduplicate_and_score E set_order stories) :
    ∃ t : Story, s = score_story t ∧
      s.match_score = some (py_round3
        (0.5 * t.match_score.getD 0.5 + 0.3 * calculate_quality_score t +
          0.2 * calculate_completeness_score t)) ∧
      calculate_quality_score t =
        min (0.5
          + (if (py_contains (py_lower (t.user_story.getD "")) "as a" &&
                 py_contains (py_lower (t.user_story.getD "")) "i need" &&
                 py_contains (py_lower (t.user_story.getD "")) "so that") = true
              then (0.2 : ℚ) else 0)
          + (if 20 < (t.capability.getD "").data.length then (0.1 : ℚ) else 0)
          + (match so_that_clause (py_lower (t.user_story.getD "")).data with
             | some g => if 10 < g.length then (0.1 : ℚ) else 0
             | none => 0)
          + (match t.tags with
             | some l => if 1 < l.length then (0.1 : ℚ) else 0
             | none => 0)) 1 ∧
      calculate_completeness_score t =
        min (0.5
          + (if truthy_str t.user_story = true then (0.1 : ℚ) else 0)
          + (if truthy_str t.capability = true then (0.1 : ℚ) else 0)
          + (if truthy_str t.category = true then (0.1 : ℚ) else 0)
          + (if truthy_str t.priority = true then (0.1 : ℚ) else 0)
          + (if truthy_str t.snippet = true then (0.05 : ℚ) else 0)
          + (if truthy_list t.tags = true then (0.05 : ℚ) else 0)
          + (if truthy_list t.requirements = true then (0.05 : ℚ) else 0)
          + (if truthy_list t.acceptance_criteria = true then (0.05 : ℚ) else 0)) 1 := by
  by_cases hempty : stories.isEmpty = true
  · rw [deduplicate_and_score, if_pos hempty] at hs
    exact absurd hs (List.not_mem_nil s)
  · have hef : stories.isEmpty = false := Bool.eq_false_iff.mpr hempty
    rw [deduplicate_and_score] at hs
    rw [hef] at hs
    simp only [Bool.false_eq_true, if_false] at hs
    have hs2 := (sort_by_score_perm _).mem_iff.mp hs
    obtain ⟨t, _, ht⟩ := List.mem_map.mp hs2
    refine ⟨t, ht.symm, ?_, calculate_quality_score_eq t, calculate_completeness_score_eq t⟩
    rw [← ht]
    have hproj : (score_story t).match_score = some (py_round3
        (t.match_score.getD 0.5 * 0.5 + calculate_quality_score t * 0.3 +
          calculate_completeness_score t * 0.2)) := rfl
    have harith : t.match_score.getD 0.5 * 0.5 + calculate_quality_score t * 0.3 +
        calculate_completeness_score t * 0.2 =
        0.5 * t.match_score.getD 0.5 + 0.3 * calculate_quality_score t +
        0.2 * calculate_completeness_score t := by ring
    rw [hproj, harith]

/-- C6 witness: a concrete run on a singleton input to which the formula
theorem applies. -/
theorem C6_witness :
    ∃ t : Story,
      score_story (clean_story story_d1) = score_story t ∧
      (score_story (clean_story story_d1)).match_score = some (py_round3
        (0.5 * t.match_score.getD 0.5 + 0.3 * calculate_quality_score t +
          0.2 * calculate_completeness_score t)) := by
  have hmem : score_story (clean_story story_d1) ∈
      deduplicate_and_score engine_zero List.dedup [story_d1] := by decide
  obtain ⟨t, h1, h2, _, _⟩ :=
    C6_final_score_formula engine_zero List.dedup [story_d1]
      (score_story (clean_story story_d1)) hmem
  exact ⟨t, h1 ▸ rfl, h2⟩

/-! ## String-order lemmas for tag sorting -/

/-- The code-point lexicographic order is total. -/
theorem le_chars_total (a : List Char) : ∀ b, le_chars a b = true ∨ le_chars b a = true := by
  induction a with
  | nil => intro b; left; rfl
  | cons c cs ih =>
    intro b
    cases b with
    | nil => right; rfl
    | cons d ds =>
      rcases Nat.lt_trichotomy c.toNat d.toNat with h | h | h
      · left; simp [le_chars, h]
      · have h1 : ¬ c.toNat < d.toNat := by omega
        have h2 : ¬ d.toNat < c.toNat := by omega
        rcases ih ds with hh | hh
        · left; simp [le_chars, h1, h2, hh]
        · right; simp [le_chars, h1, h2, hh]
      · right; simp [le_chars, h]

/-- The code-point lexicographic order is transitive. -/
theorem le_chars_trans (a : List Char) : ∀ b c, le_chars a b = true → le_chars b c = true →
    le_chars a c = true := by
  induction a with
  | nil => intro b c _ _; rfl
  | cons x xs ih =>
    intro b c h1 h2
    cases b with
    | nil => simp [le_chars] at h1
    | cons y ys =>
      cases c with
      | nil => simp [le_chars] at h2
      | cons z zs =>
        by_cases hxy : x.toNat < y.toNat
        · by_cases hyz : y.toNat < z.toNat
          · simp [le_chars, show x.toNat < z.toNat by omega]
          · by_cases hzy : z.toNat < y.toNat
            · simp [le_chars, hyz, hzy] at h2
            · simp [le_chars, show x.toNat < z.toNat by omega]
        · by_cases hyx : y.toNat < x.toNat
          · simp [le_chars, hxy, hyx] at h1
          · by_cases hyz : y.toNat < z.toNat
            · simp [le_chars, show x.toNat < z.toNat by omega]
            · by_cases hzy : z.toNat < y.toNat
              · simp [le_chars, hyz, hzy] at h2
              · have hxz1 : ¬ x.toNat < z.toNat := by omega
                have hxz2 : ¬ z.toNat < x.toNat := by omega
                simp only [le_chars, hxy, hyx, if_false] at h1
                simp only [le_chars, hyz, hzy, if_false] at h2
                simp only [le_chars, hxz1, hxz2, if_false]
                exact ih _ _ h1 h2

/-- Inserting into the ascending string sort permutes consing. -/
theorem insert_str_perm (x : String) (l : List String) :
    (insert_str x l).Perm (x :: l) := by
  induction l with
  | nil => exact List.Perm.refl _
  | cons y ys ih =>
    by_cases h : py_str_le x y = true
    · rw [insert_str, if_pos h]
    · rw [insert_str, if_neg h]
      exact (ih.cons y).trans (List.Perm.swap x y ys)

/-- The ascending string sort permutes its input. -/
theorem sort_strings_perm (l : List String) : (sort_strings l).Perm l := by
  induction l with
  | nil => exact List.Perm.refl _
  | cons x xs ih => exact (insert_str_perm x (sort_strings xs)).trans (ih.cons x)

/-- Inserting into an ascending list keeps it ascending. -/
theorem insert_str_sorted (x : String) (l : List String)
    (h : l.Sorted (fun a b => py_str_le a b = true)) :
    (insert_str x l).Sorted (fun a b => py_str_le a b = true) := by
  induction l with
  | nil => simp [insert_str]
  | cons y ys ih =>
    rw [List.sorted_cons] at h
    by_cases hxy : py_str_le x y = true
    · rw [insert_str, if_pos hxy]
      rw [List.sorted_cons]
      constructor
      · intro b hb
        rcases List.mem_cons.mp hb with hb | hb
        · rw [hb]; exact hxy
        · exact le_chars_trans _ _ _ hxy (h.1 b hb)
      · rw [List.sorted_cons]
        exact h
    · rw [insert_str, if_neg hxy]
      have hyx : py_str_le y x = true := by
        rcases le_chars_total x.data y.data with hh | hh
        · exact absurd hh hxy
        · exact hh
      rw [List.sorted_cons]
      constructor
      · intro b hb
        have hb' : b ∈ x :: ys := (insert_str_perm x ys).mem_iff.mp hb
        rcases List.mem_cons.mp hb' with hb' | hb'
        · rw [hb']; exact hyx
        · exact h.1 b hb'
      · exact ih h.2

/-- The ascending string sort produces an ascending list. -/
theorem sort_strings_sorted (l : List String) :
    (sort_strings l).Sorted (fun a b => py_str_le a b = true) := by
  induction l with
  | nil => simp [sort_strings]
  | cons x xs ih => exact insert_str_sorted x _ ih

/-! ## C3 -/

/-- C3 (amended): tags produced at structuring time by `_generate_tags` are
always duplicate-free and sorted ascending; after a duplicate-group merge the
representative's tags are still duplicate-free (for any legitimate set
iteration order, and assuming the inputs' tag lists are duplicate-free, which
structured stories satisfy) — but merged tags are NOT re-sorted (see the
counterexample). -/
theorem C3_tags_sorted_nodup :
    (∀ r : RawStory, (generate_tags r).Pairwise (fun a b => py_str_le a b = true) ∧
      (generate_tags r).Nodup) ∧
    (∀ (E : DeduplicationEngine) (set_order : List String → List String),
      SetOrderOK set_order →
      ∀ stories : List Story,
      (∀ s ∈ stories, ∀ l, s.tags = some l → l.Nodup) →
      ∀ s ∈ deduplicate_and_score E set_order stories, ∀ l, s.tags = some l → l.Nodup) := by
  constructor
  · intro r
    constructor
    · unfold generate_tags
      exact sort_strings_sorted _
    · unfold generate_tags
      exact (sort_strings_perm _).nodup_iff.mpr (List.nodup_dedup _)
  · intro E set_order hso stories hin s hs l hl
    by_cases hempty : stories.isEmpty = true
    · rw [deduplicate_and_score, if_pos hempty] at hs
      exact absurd hs (List.not_mem_nil s)
    · have hef : stories.isEmpty = false := Bool.eq_false_iff.mpr hempty
      rw [deduplicate_and_score, hef] at hs
      simp only [Bool.false_eq_true, if_false] at hs
      have hs2 := (sort_by_score_perm _).mem_iff.mp hs
      obtain ⟨t, htmem, hts⟩ := List.mem_map.mp hs2
      subst hts
      have hl' : t.tags = some l := hl
      simp only [merge_duplicates] at htmem
      rcases List.mem_append.mp htmem with hleft | hright
      · obtain ⟨g, _, hgt⟩ := List.mem_map.mp hleft
        rcases hmap : g.map (fun i => (clean_stories stories).getD i {}) with _ | ⟨base, rest⟩
        · rw [hmap] at hgt
          rw [← hgt] at hl'
          simp [merge_story_group] at hl'
        · rw [hmap] at hgt
          have htags : t.tags = some (set_order
              (((base :: rest).map (fun u => u.tags.getD [])).flatten)) := by
            rw [← hgt]
            rfl
          rw [htags] at hl'
          injection hl' with hinj
          subst hinj
          exact ((hso _).nodup_iff).mpr (List.nodup_dedup _)
      · obtain ⟨p, hpmem, hpt⟩ := List.mem_map.mp hright
        have hpen : p ∈ (clean_stories stories).enum := (List.mem_filter.mp hpmem).1
        have hp2 : p.2 ∈ clean_stories stories :=
          List.getElem?_mem (List.mem_enum_iff_getElem?.mp hpen)
        obtain ⟨orig, homem, hoc⟩ := List.mem_map.mp hp2
        have htags : t.tags = orig.tags := by
          rw [← hpt, ← hoc]
          rfl
        rw [htags] at hl'
        exact hin orig homem l hl'

/-- C3 witness: structuring-time tags of a concrete candidate are sorted, and
on a concrete merged input every output tag list is duplicate-free. -/
theorem C3_witness :
    (generate_tags { role := some "Manager", capability := some "document approval" }).Pairwise
      (fun a b => py_str_le a b = true) ∧
    ∀ s ∈ deduplicate_and_score engine_identical List.dedup [story_m1, story_m2],
      ∀ l, s.tags = some l → l.Nodup := by
  constructor
  · exact (C3_tags_sorted_nodup.1 _).1
  · apply C3_tags_sorted_nodup.2 engine_identical List.dedup set_order_ok_dedup
    intro s hs l hl
    rcases List.mem_cons.mp hs with h | h
    · subst h
      injection hl with hinj
      subst hinj
      decide
    · rcases List.mem_cons.mp h with h | h
      · subst h
        injection hl with hinj
        subst hinj
        decide
      · exact absurd h (List.not_mem_nil s)

/-- C3 counterexample: after merging a duplicate group the representative's
tag list ["b", "a"] is deduplicated but not sorted ascending, refuting the
sortedness half of the claim for merged stories. -/
theorem C3_cex :
    SetOrderOK List.dedup ∧
    (deduplicate_and_score engine_identical List.dedup [story_m1, story_m2]).map
        (fun s => s.tags) = [some ["b", "a"]] ∧
    ¬ (["b", "a"].Pairwise (fun a b => py_str_le a b = true)) := by
  refine ⟨set_order_ok_dedup, ?_, ?_⟩
  · decide
  · decide

/-! ## C2 -/

/-- Two optional tag lists that agree as multisets (both absent, or present
with the same elements in possibly different order). -/
def OptPerm : Option (List String) → Option (List String) → Prop
  | none, none => True
  | some l, some m => l.Perm m
  | _, _ => False

/-- Agreement of two story records up to the iteration order of merged sets:
every scalar field is equal and the three set-merged list fields are
permutations of each other. -/
def StoryAgrees (a b : Story) : Prop :=
  a.user_story_id = b.user_story_id ∧ a.user_story = b.user_story ∧ a.team = b.team ∧
  a.category = b.category ∧ a.lifecycle_phase = b.lifecycle_phase ∧
  a.capability = b.capability ∧ a.priority = b.priority ∧ a.source = b.source ∧
  a.snippet = b.snippet ∧ a.match_score = b.match_score ∧ a.content_hash = b.content_hash ∧
  a.extraction_method = b.extraction_method ∧ a.clean_text = b.clean_text ∧
  a.clean_capability = b.clean_capability ∧ a.clean_snippet = b.clean_snippet ∧
  a.source_files = b.source_files ∧ a.duplicate_count = b.duplicate_count ∧
  OptPerm a.tags b.tags ∧ OptPerm a.requirements b.requirements ∧
  OptPerm a.acceptance_criteria b.acceptance_criteria

/-- OptPerm is reflexive. -/
theorem opt_perm_refl (o : Option (List String)) : OptPerm o o := by
  cases o with
  | none => trivial
  | some l => exact List.Perm.refl l

/-- StoryAgrees is reflexive. -/
theorem story_agrees_refl (s : Story) : StoryAgrees s s :=
  ⟨rfl, rfl, rfl, rfl, rfl, rfl, rfl, rfl, rfl, rfl, rfl, rfl, rfl, rfl, rfl, rfl, rfl,
   opt_perm_refl _, opt_perm_refl _, opt_perm_refl _⟩

/-- Permutation-related optional lists have the same Python truthiness. -/
theorem opt_perm_truthy (o1 o2 : Option (List String)) (h : OptPerm o1 o2) :
    truthy_list o1 = truthy_list o2 := by
  cases o1 with
  | none =>
    cases o2 with
    | none => rfl
    | some m => exact absurd h (by simp [OptPerm])
  | some l =>
    cases o2 with
    | none => exact absurd h (by simp [OptPerm])
    | some m =>
      have hperm : l.Perm m := h
      have hlen : l.length = m.length := hperm.length_eq
      cases l with
      | nil =>
        cases m with
        | nil => rfl
        | cons _ _ => simp at hlen
      | cons _ _ =>
        cases m with
        | nil => simp at hlen
        | cons _ _ => rfl

/-- Agreeing stories get the same final score key. -/
theorem story_agrees_score_key (a b : Story) (h : StoryAgrees a b) :
    score_key a = score_key b := by
  rw [score_key, score_key, h.2.2.2.2.2.2.2.2.2.1]

/-- The quality score only reads fields on which agreeing stories coincide up
to tag order, and tag order does not affect it. -/
theorem quality_congr (a b : Story) (hus : a.user_story = b.user_story)
    (hcap : a.capability = b.capability) (htags : OptPerm a.tags b.tags) :
    calculate_quality_score a = calculate_quality_score b := by
  cases h1 : a.tags with
  | none =>
    cases h2 : b.tags with
    | none =>
      simp only [calculate_quality_score, h1, h2]
      rw [hus, hcap]
    | some m =>
      rw [h1, h2] at htags
      exact absurd htags (by simp [OptPerm])
  | some l =>
    cases h2 : b.tags with
    | none =>
      rw [h1, h2] at htags
      exact absurd htags (by simp [OptPerm])
    | some m =>
      rw [h1, h2] at htags
      have hperm : l.Perm m := htags
      have hlen : l.length = m.length := hperm.length_eq
      have hemp : l.isEmpty = m.isEmpty := by
        cases l <;> cases m <;> simp_all
      simp only [calculate_quality_score, h1, h2]
      rw [hus, hcap, hlen, hemp]

/-- The completeness score is invariant under agreement. -/
theorem completeness_congr (a b : Story)
    (h1 : a.user_story = b.user_story) (h2 : a.capability = b.capability)
    (h3 : a.category = b.category) (h4 : a.priority = b.priority)
    (h5 : a.snippet = b.snippet) (h6 : OptPerm a.tags b.tags)
    (h7 : OptPerm a.requirements b.requirements)
    (h8 : OptPerm a.acceptance_criteria b.acceptance_criteria) :
    calculate_completeness_score a = calculate_completeness_score b := by
  simp only [calculate_completeness_score]
  rw [h1, h2, h3, h4, h5, opt_perm_truthy _ _ h6, opt_perm_truthy _ _ h7,
    opt_perm_truthy _ _ h8]

/-- Final scoring preserves agreement (and keeps the recomputed scores
equal). -/
theorem score_story_agrees (a b : Story) (h : StoryAgrees a b) :
    StoryAgrees (score_story a) (score_story b) := by
  obtain ⟨h1, h2, h3, h4, h5, h6, h7, h8, h9, h10, h11, h12, h13, h14, h15, h16, h17,
    h18, h19, h20⟩ := h
  have hq := quality_congr a b h2 h6 h18
  have hc := completeness_congr a b h2 h6 h4 h7 h9 h18 h19 h20
  have hms : (score_story a).match_score = (score_story b).match_score := by
    have ra : (score_story a).match_score = some (py_round3
        (a.match_score.getD 0.5 * 0.5 + calculate_quality_score a * 0.3 +
          calculate_completeness_score a * 0.2)) := rfl
    have rb : (score_story b).match_score = some (py_round3
        (b.match_score.getD 0.5 * 0.5 + calculate_quality_score b * 0.3 +
          calculate_completeness_score b * 0.2)) := rfl
    rw [ra, rb, h10, hq, hc]
  exact ⟨h1, h2, h3, h4, h5, h6, h7, h8, h9, hms, h11, h12, h13, h14, h15, h16, h17,
    h18, h19, h20⟩

/-- Mapping two pointwise-related functions over one list gives related
lists. -/
theorem forall₂_map_same {α β : Type} (R : β → β → Prop) (f g : α → β)
    (h : ∀ x, R (f x) (g x)) : ∀ l : List α, List.Forall₂ R (l.map f) (l.map g) := by
  intro l
  induction l with
  | nil => exact List.Forall₂.nil
  | cons x xs ih => exact List.Forall₂.cons (h x) ih

/-- Merging one group under two legitimate set orders yields agreeing
representatives. -/
theorem merge_story_group_agrees (so1 so2 : List String → List String)
    (h1 : SetOrderOK so1) (h2 : SetOrderOK so2) (g : List Story) :
    StoryAgrees (merge_story_group so1 g) (merge_story_group so2 g) := by
  cases g with
  | nil => exact story_agrees_refl _
  | cons base rest =>
    refine ⟨rfl, rfl, rfl, rfl, rfl, rfl, rfl, rfl, rfl, rfl, rfl, rfl, rfl, rfl, rfl,
      rfl, rfl, ?_, ?_, ?_⟩
    · exact (h1 _).trans (h2 _).symm
    · exact (h1 _).trans (h2 _).symm
    · exact (h1 _).trans (h2 _).symm

/-- Merging all groups under two legitimate set orders yields pointwise
agreeing story lists. -/
theorem merge_duplicates_agrees (so1 so2 : List String → List String)
    (h1 : SetOrderOK so1) (h2 : SetOrderOK so2)
    (stories : List Story) (groups : List (List Nat)) :
    List.Forall₂ StoryAgrees (merge_duplicates so1 stories groups)
      (merge_duplicates so2 stories groups) := by
  simp only [merge_duplicates]
  apply List.rel_append
  · exact forall₂_map_same StoryAgrees _ _
      (fun g => merge_story_group_agrees so1 so2 h1 h2 _) _
  · exact List.forall₂_same.mpr (fun x _ => story_agrees_refl x)

/-- Final scoring preserves pointwise agreement. -/
theorem calculate_final_scores_agrees (l m : List Story)
    (h : List.Forall₂ StoryAgrees l m) :
    List.Forall₂ StoryAgrees (calculate_final_scores l) (calculate_final_scores m) := by
  induction h with
  | nil => exact List.Forall₂.nil
  | cons hab htail ih => exact List.Forall₂.cons (score_story_agrees _ _ hab) ih

/-- Stable insertion preserves pointwise agreement (agreeing stories have
equal sort keys, so both runs take the same branch everywhere). -/
theorem insert_scored_agrees (x y : Story) (hxy : StoryAgrees x y) :
    ∀ (l m : List Story), List.Forall₂ StoryAgrees l m →
    List.Forall₂ StoryAgrees (insert_scored x l) (insert_scored y m) := by
  intro l m h
  induction h with
  | nil => exact List.Forall₂.cons hxy List.Forall₂.nil
  | @cons a b l' m' hab htail ih =>
    have hk : score_key a = score_key b := story_agrees_score_key _ _ hab
    have hk2 : score_key x = score_key y := story_agrees_score_key _ _ hxy
    by_cases hc : score_key a ≤ score_key x
    · rw [insert_scored, if_pos hc, insert_scored,
        if_pos (show score_key b ≤ score_key y by rw [← hk, ← hk2]; exact hc)]
      exact List.Forall₂.cons hxy (List.Forall₂.cons hab htail)
    · rw [insert_scored, if_neg hc, insert_scored,
        if_neg (show ¬ score_key b ≤ score_key y by rw [← hk, ← hk2]; exact hc)]
      exact List.Forall₂.cons hab ih

/-- The final sort preserves pointwise agreement. -/
theorem sort_by_score_agrees (l m : List Story) (h : List.Forall₂ StoryAgrees l m) :
    List.Forall₂ StoryAgrees (sort_by_score l) (sort_by_score m) := by
  induction h with
  | nil => exact List.Forall₂.nil
  | @cons a b l' m' hab htail ih => exact insert_scored_agrees a b hab _ _ ih

/-- C2 (amended): the pipeline is a pure function of its input, its oracles
and the interpreter's set-iteration order, so two runs under the same order
coincide; across two runs with different (legitimate) set-iteration orders —
the situation created by Python's per-process string-hash randomization —
the outputs agree position by position in every scalar field, every merged
text and every final score, while the merged `Tags`, `requirements` and
`acceptance_criteria` lists agree only as multisets (their order may
differ). -/
theorem C2_cross_run_agreement (E : DeduplicationEngine)
    (so1 so2 : List String → List String)
    (h1 : SetOrderOK so1) (h2 : SetOrderOK so2) (stories : List Story) :
    List.Forall₂ StoryAgrees (deduplicate_and_score E so1 stories)
      (deduplicate_and_score E so2 stories) := by
  by_cases hempty : stories.isEmpty = true
  · rw [deduplicate_and_score, if_pos hempty, deduplicate_and_score, if_pos hempty]
    exact List.Forall₂.nil
  · have hef : stories.isEmpty = false := Bool.eq_false_iff.mpr hempty
    rw [deduplicate_and_score, deduplicate_and_score, hef]
    simp only [Bool.false_eq_true, if_false]
    exact sort_by_score_agrees _ _ (calculate_final_scores_agrees _ _
      (merge_duplicates_agrees so1 so2 h1 h2 _ _))

/-- C2 witness: the agreement theorem applied to a concrete merging input and
two concrete legitimate set orders. -/
theorem C2_witness :
    List.Forall₂ StoryAgrees
      (deduplicate_and_score engine_identical List.dedup [story_m1, story_m2])
      (deduplicate_and_score engine_identical (fun l => l.dedup.reverse)
        [story_m1, story_m2]) :=
  C2_cross_run_agreement engine_identical List.dedup (fun l => l.dedup.reverse)
    set_order_ok_dedup set_order_ok_dedup_reverse [story_m1, story_m2]

/-- C2 counterexample: two runs that differ only in the set-iteration order
(both legitimate for Python's `list(set(...))`) produce different output
sequences — the merged story's tag list comes out in a different order — so
run-to-run output identity does not hold. -/
theorem C2_cex :
    SetOrderOK List.dedup ∧ SetOrderOK (fun l => l.dedup.reverse) ∧
    deduplicate_and_score engine_identical List.dedup [story_m1, story_m2] ≠
      deduplicate_and_score engine_identical (fun l => l.dedup.reverse)
        [story_m1, story_m2] := by
  refine ⟨set_order_ok_dedup, set_order_ok_dedup_reverse, ?_⟩
  decide
